import Mathlib

/-!
# Verification of the `semantic_convnets` data pipeline

Shallow embedding of the taxonomy-construction-and-partitioning pipeline of
`code/data_utils.py` (and the dispatch in `code/pipeline.py`), together with
theorems checking the natural-language specification against it.

Conventions of the embedding:

* Python lists/numpy arrays along the sample axis become Lean `List`s.
* Python `set`s of dynamically typed values become `Finset PyVal`, where
  `PyVal` distinguishes string values from integer values; Python's `in`
  on a set compares with `==`, and an `int` is never `==` to a `str`, which
  the typed `PyVal` membership reproduces exactly.
* Out-of-range indexing (Python `IndexError` on `lst[i]` /
  `fine_label_names[id]` / numpy fancy-index masks) is modelled by `Option`:
  `none` is an aborted run, `some` a normal return.
* Float arithmetic is modelled over `ℝ`.
-/

/-- A dynamically typed Python value as it occurs in the label sets of
`load_cifar_pyramid`: either an integer label id or a label-name string.
Python set membership tests values with `==`, and `int == str` is `False`;
membership of `PyVal.int` in a set containing only `PyVal.str` elements is
likewise false. -/
inductive PyVal where
  | int : Int → PyVal
  | str : String → PyVal
deriving DecidableEq, Repr

/-- One corpus sample: an opaque image (identified by its row id) plus the
integer fine and coarse label ids (`y[i] = [fine_id, coarse_id]`). -/
structure Sample where
  img : Nat
  fine : Nat
  coarse : Nat
deriving DecidableEq, Repr

/-- The loop `for coarse_label, fine_labels in coarse_to_fine_map.iteritems()`
of `load_cifar_pyramid` (data_utils.py lines 215-218):
`fine_labels_joint.update(set(fine_labels[:2]))`,
`fine_labels_gate.update(set(fine_labels[:4]))`,
`fine_labels_only_test.update(set(fine_labels[4]))`.
`fine_labels[:2]` and `fine_labels[:4]` are list slices (sets of whole name
strings), while `set(fine_labels[4])` builds the set of the *characters* of
the 5th name (each a one-character Python string).  Indexing `fine_labels[4]`
raises `IndexError` when the bucket has fewer than 5 names, aborting the
partition; this is the `none` case. -/
def jointGateTestStep :
    Option (Finset PyVal × Finset PyVal × Finset PyVal) →
    String × List String → Option (Finset PyVal × Finset PyVal × Finset PyVal)
  | none, _ => none
  | some (j, g, t), b =>
    match b.2.get? 4 with
    | none => none
    | some fifth =>
      some (j ∪ ((b.2.take 2).map PyVal.str).toFinset,
            g ∪ ((b.2.take 4).map PyVal.str).toFinset,
            t ∪ (fifth.toList.map (fun c => PyVal.str (String.singleton c))).toFinset)

def jointGateTestSets (tax : List (String × List String)) :
    Option (Finset PyVal × Finset PyVal × Finset PyVal) :=
  tax.foldl jointGateTestStep (some (∅, ∅, ∅))

/-- The training-split loop of `load_cifar_pyramid` (data_utils.py lines
226-237): for each training sample in scan order, look up its fine-label
name (`fine_label_names[y_train[i, 0]]`, `none` on an out-of-range id),
append it to the joint split if the name is in the joint set, and to the
gate split (together with a routing flag: 0 if the name is also in the
joint set, else 1) if the name is in the gate set. -/
def pyramidTrainLoop (fineNames : List String) (jointS gateS : Finset PyVal) :
    List Sample → Option (List Sample × List Sample × List Nat)
  | [] => some ([], [], [])
  | s :: rest =>
    match fineNames.get? s.fine with
    | none => none
    | some name =>
      match pyramidTrainLoop fineNames jointS gateS rest with
      | none => none
      | some (tj, tg, fl) =>
        some (if PyVal.str name ∈ jointS then s :: tj else tj,
              if PyVal.str name ∈ gateS then s :: tg else tg,
              if PyVal.str name ∈ gateS then
                (if PyVal.str name ∈ jointS then 0 else 1) :: fl
              else fl)

/-- The test-split loop of `load_cifar_pyramid` (data_utils.py lines
246-253): for each test sample, `fine_label = y_test[i, 0]` (the raw integer
label id, with no name lookup) and the flag is 0 when
`fine_label in fine_labels_joint`, else 1. -/
def pyramidTestFlags (jointS : Finset PyVal) (test : List Sample) : List Nat :=
  test.map (fun s => if PyVal.int (s.fine : Int) ∈ jointS then 0 else 1)

/-- Function `load_cifar_pyramid` (data_utils.py lines 204-257), starting after the
external loads: inputs are the cached taxonomy, the fine-label name table
and the raw train/test samples; outputs are the joint training split, the
gate training split with its routing flags, the test split passed through
unchanged, and the test routing flags. -/
def load_cifar_pyramid (tax : List (String × List String))
    (fineNames : List String) (train test : List Sample) :
    Option (List Sample × List Sample × List Nat × List Sample × List Nat) :=
  match jointGateTestSets tax with
  | none => none
  | some (jointS, gateS, _) =>
    match pyramidTrainLoop fineNames jointS gateS train with
    | none => none
    | some (tj, tg, fl) =>
      some (tj, tg, fl, test, pyramidTestFlags jointS test)

/-! ## The normalizer (`load_cifar`, data_utils.py lines 120-171)

Float arithmetic is modelled over `ℝ`; a 2-D tensor is a `List (List ℝ)`
(outer index: sample, inner index: flattened pixel/channel position). -/

noncomputable section

/-- Constant `EPSILON = 1e-8` (data_utils.py line 42). -/
def EPSILON : ℝ := 1e-8

/-- Mean of a 1-D array, `np.mean`: sum over length. -/
def listMean (l : List ℝ) : ℝ := l.sum / l.length

/-- Population standard deviation of a 1-D array, `np.std`:
square root of the mean squared deviation from the mean. -/
def listStd (l : List ℝ) : ℝ :=
  Real.sqrt (listMean (l.map (fun x => (x - listMean l) ^ 2)))

/-- Mean `np.mean` of a 2-D array: total sum over total element count
(`mean_image = np.mean(X_train)`, data_utils.py line 145). -/
def mean_image (X : List (List ℝ)) : ℝ :=
  (X.map List.sum).sum / ((X.map List.length).sum : ℕ)

/-- Column `j` of a 2-D tensor: the values at pixel position `j` across
all samples (the sample axis is axis 0). -/
def column (X : List (List ℝ)) (j : Nat) : List ℝ :=
  X.map (fun r => r.getD j 0)

/-- Vector `np.std(X, axis=0)`: the per-pixel-position standard deviation taken
along the sample axis, one entry per position. -/
def npy_std_axis0 (X : List (List ℝ)) : List ℝ :=
  (List.range (X.headD []).length).map (fun j => listStd (column X j))

/-- Scalar `std_deviation = np.mean(np.std(X_train, axis=0))`
(data_utils.py line 146). -/
def std_deviation (X : List (List ℝ)) : ℝ :=
  listMean (npy_std_axis0 X)

/-- Elementwise `X -= m` (data_utils.py lines 162-164). -/
def subtract_scalar (m : ℝ) (X : List (List ℝ)) : List (List ℝ) :=
  X.map (fun r => r.map (fun x => x - m))

/-- Elementwise `X /= d` (data_utils.py lines 166-168, called with
`d = std_deviation + EPSILON`). -/
def divide_scalar (d : ℝ) (X : List (List ℝ)) : List (List ℝ) :=
  X.map (fun r => r.map (fun x => x / d))

/-- Return record of `load_cifar`.  The two scalars are observable (the
function prints them at lines 147-148), so they are part of the record. -/
structure CifarRet (Y : Type) where
  mean_image : ℝ
  std_deviation : ℝ
  X_train : List (List ℝ)
  y_train : List Y
  X_val : List (List ℝ)
  y_val : List Y
  X_test : List (List ℝ)
  y_test : List Y

/-- Function `load_cifar` (data_utils.py lines 120-171), beginning after the
external batch-file loads: compute the two statistics from the raw
training tensor, subsample the three splits with `range` masks (an
out-of-range mask raises `IndexError`: the `none` case), and if
`normalize` is set subtract `mean_image` from and then divide
`std_deviation + EPSILON` into each split.  The embedding is generic in
the label type `Y` (an integer for cifar10, a `[fine, coarse]` pair for
cifar100). -/
def load_cifar {Y : Type} (X_train_raw : List (List ℝ)) (y_train_raw : List Y)
    (X_test_raw : List (List ℝ)) (y_test_raw : List Y)
    (num_training num_validation num_test : Nat) (normalize : Bool) :
    Option (CifarRet Y) :=
  let m := mean_image X_train_raw
  let s := std_deviation X_train_raw
  if num_training + num_validation ≤ X_train_raw.length ∧
      num_training + num_validation ≤ y_train_raw.length ∧
      num_test ≤ X_test_raw.length ∧ num_test ≤ y_test_raw.length then
    let X_val := (X_train_raw.drop num_training).take num_validation
    let y_val := (y_train_raw.drop num_training).take num_validation
    let X_train := X_train_raw.take num_training
    let y_train := y_train_raw.take num_training
    let X_test := X_test_raw.take num_test
    let y_test := y_test_raw.take num_test
    if normalize then
      some ⟨m, s,
            divide_scalar (s + EPSILON) (subtract_scalar m X_train), y_train,
            divide_scalar (s + EPSILON) (subtract_scalar m X_val), y_val,
            divide_scalar (s + EPSILON) (subtract_scalar m X_test), y_test⟩
    else
      some ⟨m, s, X_train, y_train, X_val, y_val, X_test, y_test⟩
  else none

/-- Statistic as the spec's words describe it (§4.4): `mean` is the
arithmetic mean over all pixels/samples/channels of the training tensor,
i.e. the mean of the flattened tensor.  Second definition kept separate
from the code-derived `mean_image` for the refinement comparison. -/
def spec_overall_mean (X : List (List ℝ)) : ℝ :=
  X.flatten.sum / (X.flatten.length : ℕ)

/-- Statistic as the spec's words describe it (§4.4): `scale` is the mean,
across pixel positions, of the per-position standard deviation computed
over the sample axis.  Second definition kept separate from the
code-derived `std_deviation` for the refinement comparison. -/
def spec_axis_std_mean (X : List (List ℝ)) : ℝ :=
  (((List.range (X.headD []).length).map (fun j => listStd (column X j))).sum) /
    ((X.headD []).length : ℕ)

end

/-! ## The taxonomy builder (`create_coarse_to_fine_map`, lines 349-369) -/

/-- The scan of `create_coarse_to_fine_map` (data_utils.py lines 357-362):
process the training samples in order; for each, look up the coarse and
fine label names (an out-of-range id raises `IndexError`: `none`) and add
the fine name to the set keyed by the coarse name.  The `defaultdict(set)`
is modelled as a total function from coarse name to a `Finset` of fine
names, every key initially the empty set. -/
def cfFold (fineNames coarseNames : List String) :
    List Sample → Option (String → Finset String)
  | [] => some (fun _ => ∅)
  | s :: rest =>
    match coarseNames.get? s.coarse with
    | none => none
    | some cn =>
      match fineNames.get? s.fine with
      | none => none
      | some fn =>
        match cfFold fineNames coarseNames rest with
        | none => none
        | some m => some (fun c => if c = cn then insert fn (m c) else m c)

/-- Function `create_coarse_to_fine_map` (data_utils.py lines 349-369), after the
external load: gather the per-coarse sets of observed fine names, then
convert each to the sorted list of its members
(`coarse_to_fine_map[k] = sorted(list(coarse_to_fine_map[k]))`, line 365;
`sorted` on strings is lexicographic). -/
def create_coarse_to_fine_map (fineNames coarseNames : List String)
    (corpus : List Sample) : Option (String → List String) :=
  (cfFold fineNames coarseNames corpus).map (fun m c => (m c).sort (· ≤ ·))

/-- Reference characterization: the set of fine-label names observed under
coarse name `c` in the corpus (samples whose coarse-label name is `c`,
mapped to their fine-label names). -/
def observedFines (fineNames coarseNames : List String)
    (corpus : List Sample) (c : String) : Finset String :=
  (corpus.filterMap (fun s =>
    match coarseNames.get? s.coarse, fineNames.get? s.fine with
    | some cn, some fn => if cn = c then some fn else none
    | _, _ => none)).toFinset

/-! ## The taxonomy cache (`load_coarse_to_fine_map`, lines 344-346, and
the `pickle.dump` at line 368) -/

/-- Modelled from the spec: the taxonomy cache serializes with `pickle`,
an external library whose code is not part of this repository; spec §6
fixes only that the persisted blob "must round-trip a mapping from
string → ordered sequence of strings", the format being an implementation
detail.  The blob is modelled as a token stream. -/
inductive CacheTok where
  | key : String → CacheTok
  | val : String → CacheTok
deriving DecidableEq, Repr

/-- Modelled from the spec: `save(taxonomy)` — the `pickle.dump` of
`create_coarse_to_fine_map` (data_utils.py line 368).  Each coarse bucket
becomes its key token followed by one value token per fine name, in
order. -/
def save_taxonomy : List (String × List String) → List CacheTok
  | [] => []
  | (k, vs) :: rest =>
    CacheTok.key k :: (vs.map CacheTok.val ++ save_taxonomy rest)

/-- Parser worker for the cache blob, scanning from the right: value
tokens accumulate as the pending fine-name list, a key token closes the
pending list into a bucket. -/
def load_taxonomy_aux : List CacheTok → List String × List (String × List String)
  | [] => ([], [])
  | t :: rest =>
    let acc := load_taxonomy_aux rest
    match t with
    | .val s => (s :: acc.1, acc.2)
    | .key k => ([], (k, acc.1) :: acc.2)

/-- Modelled from the spec: `load()` — the `pickle.load` of
`load_coarse_to_fine_map` (data_utils.py lines 344-346).  Parse the token
stream back into the bucket list (stray value tokens before the first key
token are discarded). -/
def load_taxonomy (l : List CacheTok) : List (String × List String) :=
  (load_taxonomy_aux l).2

/-! ## The dataset dispatch (`load_data_pyramid`, data_utils.py lines
89-106; the same dispatch appears in pipeline.py lines 178-191) -/

/-- A raised Python exception: either an explicit `raise Exception(...)`
or an `IndexError` propagating from the underlying loader. -/
inductive PyErr where
  | exception : String → PyErr
  | indexError : PyErr
deriving DecidableEq, Repr

/-- The tuples `load_data_pyramid` can return, one constructor per
`return_subset` branch. -/
inductive PyramidReturn where
  | all : List Sample → List Sample → List Nat → List Sample → List Nat →
      PyramidReturn
  | jointOnly : List Sample → PyramidReturn
  | gateOnly : List Sample → List Nat → PyramidReturn
  | testOnly : List Sample → List Nat → PyramidReturn
deriving DecidableEq, Repr

/-- Dispatch on `return_subset`, the if/elif chain of `load_data_pyramid`
(data_utils.py lines 99-106): with no `else` branch, an unrecognized
subset string falls through and the function returns `None`. -/
def returnSubsetDispatch
    (d : List Sample × List Sample × List Nat × List Sample × List Nat)
    (returnSubset : String) : Option PyramidReturn :=
  if returnSubset = "all" then
    some (.all d.1 d.2.1 d.2.2.1 d.2.2.2.1 d.2.2.2.2)
  else if returnSubset = "joint_only" then some (.jointOnly d.1)
  else if returnSubset = "gate_only" then some (.gateOnly d.2.1 d.2.2.1)
  else if returnSubset = "test_only" then
    some (.testOnly d.2.2.2.1 d.2.2.2.2)
  else none

/-- Function `load_data_pyramid` (data_utils.py lines 89-106): dispatch on the
dataset identifier — `cifar100_joint` runs `load_cifar_pyramid` (whose
abort propagates), `cifar100_joint_prefeaturized` uses the prefeaturized
tuple as loaded from disk (a parameter here), any other name raises an
exception — then dispatch on `return_subset`. -/
def load_data_pyramid (tax : List (String × List String))
    (fineNames : List String) (train test : List Sample)
    (pre : List Sample × List Sample × List Nat × List Sample × List Nat)
    (dataset returnSubset : String) :
    Except PyErr (Option PyramidReturn) :=
  if dataset = "cifar100_joint" then
    match load_cifar_pyramid tax fineNames train test with
    | none => Except.error PyErr.indexError
    | some d => Except.ok (returnSubsetDispatch d returnSubset)
  else if dataset = "cifar100_joint_prefeaturized" then
    Except.ok (returnSubsetDispatch pre returnSubset)
  else
    Except.error (PyErr.exception ("Dataset " ++ dataset ++ " not found. "))

theorem jointGateTestStep_none (b : String × List String) :
    jointGateTestStep none b = none := rfl

theorem foldl_jointGateTestStep_none (l : List (String × List String)) :
    l.foldl jointGateTestStep none = none := by
  induction l with
  | nil => rfl
  | cons b l ih => simpa [jointGateTestStep_none] using ih

theorem foldl_jointGateTestStep_short (l : List (String × List String)) :
    ∀ acc : Finset PyVal × Finset PyVal × Finset PyVal,
      (∃ b ∈ l, b.2.length < 5) →
      l.foldl jointGateTestStep (some acc) = none := by
  induction l with
  | nil => intro acc h; simp at h
  | cons b l ih =>
    rintro ⟨j, g, t⟩ ⟨b', hb', hlen⟩
    rcases List.mem_cons.1 hb' with rfl | hmem
    · have h4 : b'.2.get? 4 = none := List.get?_eq_none.mpr (by omega)
      simp only [List.foldl_cons, jointGateTestStep, h4]
      exact foldl_jointGateTestStep_none l
    · cases h4 : b.2.get? 4 with
      | none =>
        simp only [List.foldl_cons, jointGateTestStep, h4]
        exact foldl_jointGateTestStep_none l
      | some fifth =>
        simp only [List.foldl_cons, jointGateTestStep, h4]
        exact ih _ ⟨b', hmem, hlen⟩

/-- Claim C3: for every taxonomy containing a coarse bucket with fewer than
5 fine-label names, the partitioning step of `load_cifar_pyramid` aborts
(an `IndexError` from `fine_labels[4]`) before producing any of its
outputs: the whole run is `none`, never a truncated or padded result. -/
theorem partition_aborts_on_short_bucket
    (tax : List (String × List String)) (fineNames : List String)
    (train test : List Sample)
    (h : ∃ b ∈ tax, b.2.length < 5) :
    load_cifar_pyramid tax fineNames train test = none := by
  have hsets : jointGateTestSets tax = none := foldl_jointGateTestStep_short tax _ h
  simp [load_cifar_pyramid, hsets]

theorem partition_aborts_on_short_bucket_witness :
    (∃ b ∈ [("c0", ["f0", "f1", "f2", "f3"])], b.2.length < 5) ∧
      load_cifar_pyramid [("c0", ["f0", "f1", "f2", "f3"])] ["f0"]
        [⟨0, 0, 0⟩] [⟨1, 0, 0⟩] = none :=
  ⟨by decide,
   partition_aborts_on_short_bucket _ _ _ _ (by decide)⟩

theorem pyramidTrainLoop_eq_filter
    (fineNames : List String) (jointS gateS : Finset PyVal)
    (nm : Sample → String) :
    ∀ train : List Sample,
      (∀ s ∈ train, fineNames.get? s.fine = some (nm s)) →
      pyramidTrainLoop fineNames jointS gateS train =
        some (train.filter (fun s => decide (PyVal.str (nm s) ∈ jointS)),
              train.filter (fun s => decide (PyVal.str (nm s) ∈ gateS)),
              (train.filter (fun s => decide (PyVal.str (nm s) ∈ gateS))).map
                (fun s => if PyVal.str (nm s) ∈ jointS then 0 else 1)) := by
  intro train
  induction train with
  | nil => intro _; rfl
  | cons s rest ih =>
    intro h
    have hs := h s (List.mem_cons_self s rest)
    have hrest := ih (fun x hx => h x (List.mem_cons_of_mem _ hx))
    simp only [pyramidTrainLoop, hs, hrest, List.filter_cons]
    by_cases hj : PyVal.str (nm s) ∈ jointS <;>
      by_cases hg : PyVal.str (nm s) ∈ gateS <;>
        simp [hj, hg]

/-- Claim C4: whenever the label sets are computed and every training
sample's fine-label id has a name, the gate-training output is the stable
filter of the training corpus by gate-set membership of the fine-label
name, in original scan order, and the routing flags are index-aligned with
it, each flag 0 when the name is also in the joint set, else 1 (the joint
output, the test passthrough and the test flags are also characterized). -/
theorem gate_training_is_stable_filter
    (tax : List (String × List String)) (fineNames : List String)
    (train test : List Sample)
    (jointS gateS testOnlyS : Finset PyVal) (nm : Sample → String)
    (hsets : jointGateTestSets tax = some (jointS, gateS, testOnlyS))
    (hnm : ∀ s ∈ train, fineNames.get? s.fine = some (nm s)) :
    load_cifar_pyramid tax fineNames train test =
      some (train.filter (fun s => decide (PyVal.str (nm s) ∈ jointS)),
            train.filter (fun s => decide (PyVal.str (nm s) ∈ gateS)),
            (train.filter (fun s => decide (PyVal.str (nm s) ∈ gateS))).map
              (fun s => if PyVal.str (nm s) ∈ jointS then 0 else 1),
            test, pyramidTestFlags jointS test) := by
  simp only [load_cifar_pyramid, hsets,
    pyramidTrainLoop_eq_filter fineNames jointS gateS nm train hnm]

theorem gate_training_is_stable_filter_witness :
    (jointGateTestSets [("c0", ["f0", "f1", "f2", "f3", "f4"])] =
        some ({PyVal.str "f0", PyVal.str "f1"},
              {PyVal.str "f0", PyVal.str "f1", PyVal.str "f2", PyVal.str "f3"},
              {PyVal.str "f", PyVal.str "4"})) ∧
    (∀ s ∈ [(⟨0, 0, 0⟩ : Sample), ⟨1, 1, 0⟩, ⟨2, 2, 0⟩, ⟨3, 3, 0⟩, ⟨4, 4, 0⟩],
        (["f0", "f1", "f2", "f3", "f4"] : List String).get? s.fine =
          some ((["f0", "f1", "f2", "f3", "f4"] : List String).getD s.fine "")) ∧
    load_cifar_pyramid [("c0", ["f0", "f1", "f2", "f3", "f4"])]
        ["f0", "f1", "f2", "f3", "f4"]
        [⟨0, 0, 0⟩, ⟨1, 1, 0⟩, ⟨2, 2, 0⟩, ⟨3, 3, 0⟩, ⟨4, 4, 0⟩] [⟨9, 4, 0⟩] =
      some ([⟨0, 0, 0⟩, ⟨1, 1, 0⟩],
            [⟨0, 0, 0⟩, ⟨1, 1, 0⟩, ⟨2, 2, 0⟩, ⟨3, 3, 0⟩],
            [0, 0, 1, 1],
            [⟨9, 4, 0⟩], [1]) :=
  ⟨by decide, by decide,
   (gate_training_is_stable_filter [("c0", ["f0", "f1", "f2", "f3", "f4"])]
      ["f0", "f1", "f2", "f3", "f4"]
      [⟨0, 0, 0⟩, ⟨1, 1, 0⟩, ⟨2, 2, 0⟩, ⟨3, 3, 0⟩, ⟨4, 4, 0⟩] [⟨9, 4, 0⟩]
      {PyVal.str "f0", PyVal.str "f1"}
      {PyVal.str "f0", PyVal.str "f1", PyVal.str "f2", PyVal.str "f3"}
      {PyVal.str "f", PyVal.str "4"}
      (fun s => (["f0", "f1", "f2", "f3", "f4"] : List String).getD s.fine "")
      (by decide) (by decide)).trans (by decide)⟩

/-- Claim C1 (code evaluation): the test loop of `load_cifar_pyramid`
compares the raw integer label id with the joint set of name strings, so a
test sample whose fine-label *name* is in the joint set still gets routing
flag 1, contradicting the specified flag 0: with a one-bucket taxonomy the
joint set contains the name of label id 0, yet the flag list is `[1]`. -/
theorem test_flag_ignores_label_name :
    load_cifar_pyramid [("c0", ["f0", "f1", "f2", "f3", "f4"])]
        ["f0", "f1", "f2", "f3", "f4"] [] [⟨0, 0, 0⟩] =
      some ([], [], [], [⟨0, 0, 0⟩], [1]) ∧
    (["f0", "f1", "f2", "f3", "f4"] : List String).get? 0 = some "f0" ∧
    (jointGateTestSets [("c0", ["f0", "f1", "f2", "f3", "f4"])]).map
        (fun x => decide (PyVal.str "f0" ∈ x.1)) = some true := by
  refine ⟨by decide, by decide, by decide⟩

/-- Claim C2 (code evaluation): on the two-bucket taxonomy of the spec's
end-to-end scenario, `fine_labels_only_test` is built from
`set(fine_labels[4])`, the set of the *characters* of each 5th name, so it
equals the one-character strings `{"f", "4", "9"}` and not the set of 5th
names `{"f4", "f9"}` the spec expects. -/
theorem test_only_set_is_character_set :
    (jointGateTestSets
        [("c0", ["f0", "f1", "f2", "f3", "f4"]),
         ("c1", ["f5", "f6", "f7", "f8", "f9"])]).map (fun x => x.2.2) =
      some (((∅ : Finset PyVal) ∪
              ("f4".toList.map (fun c => PyVal.str (String.singleton c))).toFinset) ∪
            ("f9".toList.map (fun c => PyVal.str (String.singleton c))).toFinset) ∧
    ((∅ : Finset PyVal) ∪
        ("f4".toList.map (fun c => PyVal.str (String.singleton c))).toFinset) ∪
      ("f9".toList.map (fun c => PyVal.str (String.singleton c))).toFinset =
      {PyVal.str "f", PyVal.str "4", PyVal.str "9"} ∧
    ({PyVal.str "f", PyVal.str "4", PyVal.str "9"} : Finset PyVal) ≠
      {PyVal.str "f4", PyVal.str "f9"} :=
  ⟨rfl, by decide, by decide⟩


theorem mean_image_eq_spec (X : List (List ℝ)) :
    mean_image X = spec_overall_mean X := by
  unfold mean_image spec_overall_mean
  rw [List.sum_flatten, List.length_flatten]

theorem std_deviation_eq_spec (X : List (List ℝ)) :
    std_deviation X = spec_axis_std_mean X := by
  unfold std_deviation spec_axis_std_mean listMean npy_std_axis0
  rw [List.length_map, List.length_range]

theorem divide_subtract_eq_formula (m d : ℝ) (X : List (List ℝ)) :
    divide_scalar d (subtract_scalar m X) =
      X.map (fun r => r.map (fun x => (x - m) / d)) := by
  unfold divide_scalar subtract_scalar
  simp [List.map_map, Function.comp]

/-- Claim C5: the two normalization scalars are a function of the raw
training data alone: two runs of `load_cifar` with the same training
tensor and labels, the same subsample sizes, and any two test inputs of
equal lengths report the same `mean_image` and `std_deviation` — the test
(and derived validation) contents never influence the statistics. -/
theorem normalization_scalars_ignore_test_data {Y : Type}
    (Xtr : List (List ℝ)) (ytr : List Y)
    (Xte₁ Xte₂ : List (List ℝ)) (yte₁ yte₂ : List Y)
    (nT nV nTe : Nat) (nrm : Bool)
    (hX : Xte₁.length = Xte₂.length) (hy : yte₁.length = yte₂.length) :
    (load_cifar Xtr ytr Xte₁ yte₁ nT nV nTe nrm).map
        (fun r => (r.mean_image, r.std_deviation)) =
      (load_cifar Xtr ytr Xte₂ yte₂ nT nV nTe nrm).map
        (fun r => (r.mean_image, r.std_deviation)) := by
  unfold load_cifar
  rw [hX, hy]
  split_ifs <;> simp

theorem normalization_scalars_ignore_test_data_witness :
    ([[(2 : ℝ)]].length = [[(3 : ℝ)]].length) ∧
    ([((0 : Nat), (0 : Nat))].length = [((0 : Nat), (0 : Nat))].length) ∧
    (load_cifar [[(1 : ℝ)]] [((0 : Nat), (0 : Nat))] [[(2 : ℝ)]]
          [((0 : Nat), (0 : Nat))] 1 0 1 true).map
        (fun r => (r.mean_image, r.std_deviation)) =
      (load_cifar [[(1 : ℝ)]] [((0 : Nat), (0 : Nat))] [[(3 : ℝ)]]
          [((0 : Nat), (0 : Nat))] 1 0 1 true).map
        (fun r => (r.mean_image, r.std_deviation)) :=
  ⟨rfl, rfl,
   normalization_scalars_ignore_test_data [[(1 : ℝ)]] [((0 : Nat), (0 : Nat))]
     [[(2 : ℝ)]] [[(3 : ℝ)]] [((0 : Nat), (0 : Nat))] [((0 : Nat), (0 : Nat))]
     1 0 1 true rfl rfl⟩

/-- Claim C8: with normalization on, `load_cifar` computes `mean` as the
arithmetic mean over all entries of the training tensor and `scale` as
the mean over pixel positions of the per-position standard deviation
along the sample axis, and applies `(x - mean) / (scale + EPSILON)` with
these same two scalars to every entry of the training, validation and
test splits (or aborts on an out-of-range subsample mask). -/
theorem normalizer_applies_spec_formula {Y : Type}
    (Xtr : List (List ℝ)) (ytr : List Y) (Xte : List (List ℝ)) (yte : List Y)
    (nT nV nTe : Nat) :
    load_cifar Xtr ytr Xte yte nT nV nTe true =
      if nT + nV ≤ Xtr.length ∧ nT + nV ≤ ytr.length ∧
          nTe ≤ Xte.length ∧ nTe ≤ yte.length then
        some ⟨spec_overall_mean Xtr, spec_axis_std_mean Xtr,
              (Xtr.take nT).map (fun r => r.map (fun x =>
                (x - spec_overall_mean Xtr) / (spec_axis_std_mean Xtr + EPSILON))),
              ytr.take nT,
              ((Xtr.drop nT).take nV).map (fun r => r.map (fun x =>
                (x - spec_overall_mean Xtr) / (spec_axis_std_mean Xtr + EPSILON))),
              (ytr.drop nT).take nV,
              (Xte.take nTe).map (fun r => r.map (fun x =>
                (x - spec_overall_mean Xtr) / (spec_axis_std_mean Xtr + EPSILON))),
              yte.take nTe⟩
      else none := by
  by_cases h : nT + nV ≤ Xtr.length ∧ nT + nV ≤ ytr.length ∧
      nTe ≤ Xte.length ∧ nTe ≤ yte.length
  · simp [load_cifar, h, mean_image_eq_spec, std_deviation_eq_spec,
      divide_subtract_eq_formula]
  · simp [load_cifar, h]

theorem listMean_replicate (n : Nat) (c : ℝ) (hn : n ≠ 0) :
    listMean (List.replicate n c) = c := by
  unfold listMean
  rw [List.sum_replicate, List.length_replicate, nsmul_eq_mul,
    mul_div_cancel_left₀]
  exact_mod_cast hn

theorem listStd_replicate (n : Nat) (c : ℝ) (hn : n ≠ 0) :
    listStd (List.replicate n c) = 0 := by
  unfold listStd
  rw [listMean_replicate n c hn, List.map_replicate]
  simp [listMean, List.sum_replicate]

theorem column_of_constant_rows (X : List (List ℝ)) (row : List ℝ)
    (hrow : ∀ r ∈ X, r = row) (j : Nat) :
    column X j = List.replicate X.length (row.getD j 0) := by
  unfold column
  refine List.eq_replicate_iff.mpr ⟨by simp, ?_⟩
  intro b hb
  rcases List.mem_map.1 hb with ⟨r, hr, rfl⟩
  rw [hrow r hr]

theorem std_deviation_of_constant_rows (X : List (List ℝ)) (row : List ℝ)
    (hrow : ∀ r ∈ X, r = row) (hne : X ≠ []) :
    std_deviation X = 0 := by
  have hlen : X.length ≠ 0 := fun h => hne (List.length_eq_zero.mp h)
  have hmap : npy_std_axis0 X = List.replicate (X.headD []).length 0 := by
    unfold npy_std_axis0
    refine List.eq_replicate_iff.mpr ⟨by simp, ?_⟩
    intro b hb
    rcases List.mem_map.1 hb with ⟨j, _, rfl⟩
    rw [column_of_constant_rows X row hrow j]
    exact listStd_replicate _ _ hlen
  unfold std_deviation
  rw [hmap]
  simp [listMean, List.sum_replicate]

/-- Claim C9: for a training tensor with zero variance at every pixel
position (all sample rows equal, so `std_deviation` is 0) and any ε > 0,
the divisor `scale + ε` of the normalization transform is non-zero — no
division by zero — and the transform maps every entry x of any tensor to
`(x - mean) / ε`. -/
theorem zero_variance_transform_divides_by_epsilon
    (Xtr : List (List ℝ)) (row : List ℝ)
    (hrow : ∀ r ∈ Xtr, r = row) (hne : Xtr ≠ [])
    (ε : ℝ) (hε : 0 < ε) :
    std_deviation Xtr = 0 ∧ std_deviation Xtr + ε ≠ 0 ∧
      ∀ X : List (List ℝ),
        divide_scalar (std_deviation Xtr + ε)
            (subtract_scalar (mean_image Xtr) X) =
          X.map (fun r => r.map (fun x => (x - mean_image Xtr) / ε)) := by
  have h0 : std_deviation Xtr = 0 := std_deviation_of_constant_rows Xtr row hrow hne
  refine ⟨h0, ?_, ?_⟩
  · rw [h0, zero_add]
    exact ne_of_gt hε
  · intro X
    rw [h0, zero_add, divide_subtract_eq_formula]

theorem zero_variance_transform_divides_by_epsilon_witness :
    (∀ r ∈ [[(1 : ℝ), 2], [1, 2]], r = [1, 2]) ∧
    ([[(1 : ℝ), 2], [1, 2]] ≠ ([] : List (List ℝ))) ∧ (0 : ℝ) < 1 ∧
    (std_deviation [[(1 : ℝ), 2], [1, 2]] = 0 ∧
      std_deviation [[(1 : ℝ), 2], [1, 2]] + 1 ≠ 0 ∧
      ∀ X : List (List ℝ),
        divide_scalar (std_deviation [[(1 : ℝ), 2], [1, 2]] + 1)
            (subtract_scalar (mean_image [[(1 : ℝ), 2], [1, 2]]) X) =
          X.map (fun r => r.map (fun x =>
            (x - mean_image [[(1 : ℝ), 2], [1, 2]]) / 1))) :=
  ⟨by simp, by simp, by norm_num,
   zero_variance_transform_divides_by_epsilon [[(1 : ℝ), 2], [1, 2]] [1, 2]
     (by simp) (by simp) 1 (by norm_num)⟩

theorem load_taxonomy_aux_append_vals (vs : List String) (l : List CacheTok) :
    load_taxonomy_aux (vs.map CacheTok.val ++ l) =
      (vs ++ (load_taxonomy_aux l).1, (load_taxonomy_aux l).2) := by
  induction vs with
  | nil => simp
  | cons v vs ih => simp [load_taxonomy_aux, ih]

theorem load_taxonomy_aux_save (T : List (String × List String)) :
    load_taxonomy_aux (save_taxonomy T) = ([], T) := by
  induction T with
  | nil => rfl
  | cons b rest ih =>
    obtain ⟨k, vs⟩ := b
    simp [save_taxonomy, load_taxonomy_aux, load_taxonomy_aux_append_vals, ih]

/-- Claim C6: the taxonomy cache round-trips — loading a saved taxonomy
reproduces it exactly: same coarse keys, same fine-name sequences, same
order within each sequence (the serializer itself is external `pickle`
and is modelled from the spec's round-trip contract, §6). -/
theorem load_save_taxonomy_roundtrip (T : List (String × List String)) :
    load_taxonomy (save_taxonomy T) = T := by
  unfold load_taxonomy
  rw [load_taxonomy_aux_save]

theorem observedFines_cons (fineNames coarseNames : List String)
    (s : Sample) (rest : List Sample) (cn fn : String)
    (hc : coarseNames.get? s.coarse = some cn)
    (hf : fineNames.get? s.fine = some fn) (c : String) :
    observedFines fineNames coarseNames (s :: rest) c =
      if cn = c then insert fn (observedFines fineNames coarseNames rest c)
      else observedFines fineNames coarseNames rest c := by
  unfold observedFines
  rw [List.filterMap_cons]
  simp only [hc, hf]
  by_cases hcc : cn = c
  · simp only [if_pos hcc, List.toFinset_cons]
  · simp only [if_neg hcc]

theorem cfFold_good (fineNames coarseNames : List String) :
    ∀ corpus : List Sample,
      (∀ s ∈ corpus, (coarseNames.get? s.coarse).isSome ∧
          (fineNames.get? s.fine).isSome) →
      cfFold fineNames coarseNames corpus =
        some (observedFines fineNames coarseNames corpus) := by
  intro corpus
  induction corpus with
  | nil =>
    intro _
    rfl
  | cons s rest ih =>
    intro h
    obtain ⟨h1, h2⟩ := h s (List.mem_cons_self s rest)
    obtain ⟨cn, hc⟩ := Option.isSome_iff_exists.mp h1
    obtain ⟨fn, hf⟩ := Option.isSome_iff_exists.mp h2
    rw [cfFold, hc, hf, ih (fun x hx => h x (List.mem_cons_of_mem _ hx))]
    show some (fun c => if c = cn
        then insert fn (observedFines fineNames coarseNames rest c)
        else observedFines fineNames coarseNames rest c) =
      some (observedFines fineNames coarseNames (s :: rest))
    congr 1
    funext c
    rw [observedFines_cons fineNames coarseNames s rest cn fn hc hf c]
    by_cases hcc : c = cn
    · rw [if_pos hcc, if_pos hcc.symm]
    · rw [if_neg hcc, if_neg (fun heq => hcc heq.symm)]

theorem toFinset_eq_of_perm {A : Type} [DecidableEq A] {l1 l2 : List A}
    (h : l1.Perm l2) : l1.toFinset = l2.toFinset := by
  ext a
  simp [List.mem_toFinset, h.mem_iff]

theorem observedFines_perm (fineNames coarseNames : List String)
    {c1 c2 : List Sample} (h : c1.Perm c2) (c : String) :
    observedFines fineNames coarseNames c1 c =
      observedFines fineNames coarseNames c2 c :=
  toFinset_eq_of_perm (h.filterMap _)

/-- Claim C7: the taxonomy builder maps each coarse-label name to the
lexicographically sorted sequence of the distinct fine-label names
observed under it in the training corpus, and it builds the same taxonomy
for every scan order (permutation) of the corpus. -/
theorem taxonomy_builder_sorted_and_order_independent
    (fineNames coarseNames : List String) (corpus : List Sample)
    (h : ∀ s ∈ corpus, (coarseNames.get? s.coarse).isSome ∧
        (fineNames.get? s.fine).isSome) :
    create_coarse_to_fine_map fineNames coarseNames corpus =
      some (fun c =>
        (observedFines fineNames coarseNames corpus c).sort (· ≤ ·)) ∧
    ∀ corpus' : List Sample, corpus.Perm corpus' →
      create_coarse_to_fine_map fineNames coarseNames corpus' =
        create_coarse_to_fine_map fineNames coarseNames corpus := by
  constructor
  · rw [create_coarse_to_fine_map, cfFold_good fineNames coarseNames corpus h,
      Option.map_some']
  · intro corpus' hperm
    have h' : ∀ s ∈ corpus', (coarseNames.get? s.coarse).isSome ∧
        (fineNames.get? s.fine).isSome := fun s hs => h s (hperm.symm.subset hs)
    rw [create_coarse_to_fine_map, create_coarse_to_fine_map,
      cfFold_good fineNames coarseNames corpus h,
      cfFold_good fineNames coarseNames corpus' h',
      Option.map_some', Option.map_some']
    congr 1
    funext c
    rw [observedFines_perm fineNames coarseNames hperm c]

theorem taxonomy_builder_sorted_and_order_independent_witness :
    (∀ s ∈ [(⟨0, 0, 0⟩ : Sample), ⟨1, 1, 0⟩],
        ((["c0"] : List String).get? s.coarse).isSome ∧
        ((["b", "a"] : List String).get? s.fine).isSome) ∧
    (create_coarse_to_fine_map ["b", "a"] ["c0"] [⟨0, 0, 0⟩, ⟨1, 1, 0⟩] =
      some (fun c =>
        (observedFines ["b", "a"] ["c0"] [⟨0, 0, 0⟩, ⟨1, 1, 0⟩] c).sort (· ≤ ·)) ∧
    ∀ corpus' : List Sample,
      List.Perm [(⟨0, 0, 0⟩ : Sample), ⟨1, 1, 0⟩] corpus' →
      create_coarse_to_fine_map ["b", "a"] ["c0"] corpus' =
        create_coarse_to_fine_map ["b", "a"] ["c0"] [⟨0, 0, 0⟩, ⟨1, 1, 0⟩]) :=
  ⟨by decide,
   taxonomy_builder_sorted_and_order_independent ["b", "a"] ["c0"]
     [⟨0, 0, 0⟩, ⟨1, 1, 0⟩] (by decide)⟩

/-- Claim C10: for every recognized dataset identifier (with, for
`cifar100_joint`, a corpus the partitioner accepts), a `return_subset`
value outside the four known strings makes `load_data_pyramid` return
`None`: no exception is raised and no partition is returned. -/
theorem unknown_return_subset_yields_none
    (tax : List (String × List String)) (fineNames : List String)
    (train test : List Sample)
    (pre : List Sample × List Sample × List Nat × List Sample × List Nat)
    (dataset returnSubset : String)
    (hds : dataset = "cifar100_joint" ∧
        (load_cifar_pyramid tax fineNames train test).isSome ∨
      dataset = "cifar100_joint_prefeaturized")
    (hrs : returnSubset ≠ "all" ∧ returnSubset ≠ "joint_only" ∧
        returnSubset ≠ "gate_only" ∧ returnSubset ≠ "test_only") :
    load_data_pyramid tax fineNames train test pre dataset returnSubset =
      Except.ok none := by
  obtain ⟨h1, h2, h3, h4⟩ := hrs
  have hdisp : ∀ d, returnSubsetDispatch d returnSubset = none := by
    intro d
    simp [returnSubsetDispatch, h1, h2, h3, h4]
  rcases hds with ⟨hd, hsome⟩ | hd
  · subst hd
    obtain ⟨d, hdq⟩ := Option.isSome_iff_exists.mp hsome
    simp [load_data_pyramid, hdq, hdisp]
  · subst hd
    simp [load_data_pyramid, hdisp]

theorem unknown_return_subset_yields_none_witness :
    (("cifar100_joint" : String) = "cifar100_joint" ∧
      (load_cifar_pyramid [] [] [] []).isSome ∨
      ("cifar100_joint" : String) = "cifar100_joint_prefeaturized") ∧
    (("bogus" : String) ≠ "all" ∧ ("bogus" : String) ≠ "joint_only" ∧
      ("bogus" : String) ≠ "gate_only" ∧ ("bogus" : String) ≠ "test_only") ∧
    load_data_pyramid [] [] [] [] ([], [], [], [], []) "cifar100_joint" "bogus" =
      Except.ok none :=
  ⟨Or.inl ⟨rfl, by decide⟩, by decide,
   unknown_return_subset_yields_none [] [] [] [] ([], [], [], [], [])
     "cifar100_joint" "bogus" (Or.inl ⟨rfl, by decide⟩) (by decide)⟩
